import Mathlib

/-!
Formal model of the prompt-forge backend (`backend.py`): the retry controller
`safe_completion`, the resilient JSON extractor `_extract_json_object` /
`_safe_json_parse`, the optimizer fan-out `run_optimizers`, the judge
`get_winner_and_scores`, the fuser `get_fusion`, and the model-name
normalizer `_normalize_groq_model`.

Strings are manipulated through their character lists.  The external
chat-completion call is modelled by an oracle `calls : Nat → CallOutcome`
giving the outcome of each attempt; `asyncio.sleep` is modelled by recording
the slept durations in a list.
-/

/-- Characters that Python's `str.strip()` and the regex class `\s` treat as
whitespace (the ASCII portion, which is all the source's inputs use). -/
def isPySpace (c : Char) : Bool :=
  c = ' ' || c = '\t' || c = '\n' || c = '\r' || c = '\x0b' || c = '\x0c'

/-- The double-quote character. -/
def dquoteChar : Char := Char.ofNat 34

/-- The single-quote character. -/
def squoteChar : Char := Char.ofNat 39

/-- The backslash character. -/
def bslashChar : Char := Char.ofNat 92

/-- The opening-brace character. -/
def lbraceChar : Char := Char.ofNat 123

/-- The closing-brace character. -/
def rbraceChar : Char := Char.ofNat 125

/-- The opening-bracket character. -/
def lbrackChar : Char := Char.ofNat 91

/-- The closing-bracket character. -/
def rbrackChar : Char := Char.ofNat 93

/-- Boolean list-prefix test (Python `str.startswith` on char lists). -/
def isPrefixL : List Char → List Char → Bool
  | [], _ => true
  | _ :: _, [] => false
  | p :: ps, c :: cs => p == c && isPrefixL ps cs

/-- Python's substring test `pat in s`, on char lists. -/
def containsSubL (pat : List Char) : List Char → Bool
  | [] => isPrefixL pat []
  | c :: rest => isPrefixL pat (c :: rest) || containsSubL pat rest

/-- Python `str.strip()`: remove leading and trailing whitespace. -/
def pyStripL (l : List Char) : List Char :=
  (((l.dropWhile isPySpace).reverse).dropWhile isPySpace).reverse

/-- `_normalize_groq_model` (backend.py lines 15-19) on char lists:
strip the identifier and prepend `groq/` unless already present. -/
def normGroqL (l : List Char) : List Char :=
  let modelName := pyStripL l
  if isPrefixL (("groq/").data) modelName then modelName
  else (("groq/").data) ++ modelName

/-- `_normalize_groq_model` (backend.py lines 15-19). -/
def _normalize_groq_model (model : String) : String :=
  ⟨normGroqL model.data⟩

example : _normalize_groq_model (" llama-3.1 ") = ("groq/llama-3.1") := by rfl

example : ("\x7b") = ("" ++ ⟨[lbraceChar]⟩) := by rfl

/-! ## The retry controller `safe_completion` (backend.py lines 22-44) -/

/-- Outcome of one underlying `litellm.acompletion` attempt: the completion
content on success, a typed `litellm.RateLimitError`, or any other exception
(identified by its message string). -/
inductive CallOutcome where
  | success (content : String)
  | rateLimitError (msg : String)
  | otherExc (msg : String)

/-- A Python exception as observed by callers: the typed rate-limit error,
a generic exception, or a `RuntimeError` raised `from` a cause. -/
inductive PyExc where
  | rateLimit (msg : String)
  | generic (msg : String)
  | runtimeError (msg : String) (cause : Option PyExc)

/-- Python `str(e)` on the modelled exceptions: the message. -/
def pyStr : PyExc → String
  | .rateLimit m => m
  | .generic m => m
  | .runtimeError m _ => m

/-- The string-based rate-limit classifier of backend.py lines 34-35:
`"429" in message or ("rate" in message and "limit" in message)` on the
lower-cased message. -/
def isRateLimitedMsg (msg : String) : Bool :=
  let message := msg.data.map Char.toLower
  containsSubL (("429").data) message ||
    (containsSubL (("rate").data) message && containsSubL (("limit").data) message)

/-- Result of one iteration of the retry loop body: either the loop finishes
(returning or raising), or it sleeps `wait` seconds and retries recording
`e` as the last error. -/
inductive StepRes where
  | done (r : Except PyExc String)
  | retry (e : PyExc) (wait : Nat)

/-- One iteration of `safe_completion`'s `for attempt in range(4)` body
(backend.py lines 25-42): a typed `RateLimitError` always backs off
`15 * 2^attempt` seconds; any other exception backs off only when its message
classifies as rate-limited and `attempt < 3`, and otherwise re-raises. -/
def attemptStep (out : CallOutcome) (attempt : Nat) : StepRes :=
  match out with
  | .success t => .done (.ok t)
  | .rateLimitError m => .retry (.rateLimit m) (15 * 2 ^ attempt)
  | .otherExc m =>
    if isRateLimitedMsg m && decide (attempt < 3) then
      .retry (.generic m) (15 * 2 ^ attempt)
    else .done (.error (.generic m))

/-- The retry loop of `safe_completion`, with `remaining` attempts left,
current 0-based `attempt` index and the `last_error` seen so far.  Returns
the result together with the list of back-off sleeps performed.  When the
loop ends without returning, backend.py line 44 raises
`RuntimeError("Rate limit retries exhausted") from last_error`. -/
def safeLoop (calls : Nat → CallOutcome) :
    Nat → Nat → Option PyExc → Except PyExc String × List Nat
  | 0, _, lastError =>
    (.error (.runtimeError ("Rate limit retries exhausted") lastError), [])
  | remaining + 1, attempt, _lastError =>
    match attemptStep (calls attempt) attempt with
    | .done r => (r, [])
    | .retry e w =>
      let nxt := safeLoop calls remaining (attempt + 1) (some e)
      (nxt.1, w :: nxt.2)

/-- `safe_completion` (backend.py lines 22-44): up to 4 attempts of the
wrapped call, whose per-attempt outcomes are given by the oracle `calls`. -/
def safe_completion (calls : Nat → CallOutcome) : Except PyExc String × List Nat :=
  safeLoop calls 4 0 none

/-- An attempt outcome counts as rate-limit-classified when it is the typed
`RateLimitError` or a generic exception whose message matches the string
classifier. -/
def RateClassified (o : CallOutcome) : Prop :=
  (∃ m, o = .rateLimitError m) ∨
    (∃ m, o = .otherExc m ∧ isRateLimitedMsg m = true)

/-- The `retries exhausted` failure shape of backend.py line 44. -/
def RetriesExhausted (r : Except PyExc String) : Prop :=
  ∃ last, r = .error (.runtimeError ("Rate limit retries exhausted") last)

example : isRateLimitedMsg ("HTTP 429 Too Many Requests") = true := by rfl
example : isRateLimitedMsg ("connection reset") = false := by rfl

theorem safeLoop_allTyped (calls : Nat → CallOutcome) (m0 m1 m2 m3 : String)
    (h0 : calls 0 = .rateLimitError m0) (h1 : calls 1 = .rateLimitError m1)
    (h2 : calls 2 = .rateLimitError m2) (h3 : calls 3 = .rateLimitError m3) :
    safe_completion calls =
      (.error (.runtimeError ("Rate limit retries exhausted")
          (some (.rateLimit m3))), [15, 30, 60, 120]) := by
  simp [safe_completion, safeLoop, attemptStep, h0, h1, h2, h3]

theorem attemptStep_classified (o : CallOutcome) (k : Nat)
    (ho : RateClassified o) (hk : k < 3) :
    ∃ e, attemptStep o k = .retry e (15 * 2 ^ k) := by
  rcases ho with ⟨m, rfl⟩ | ⟨m, rfl, hm⟩
  · exact ⟨.rateLimit m, rfl⟩
  · exact ⟨.generic m, by simp [attemptStep, hm, hk]⟩

/-- C2 (corrected): when all 4 attempts fail with the TYPED rate-limit error,
`safe_completion` fails with `RuntimeError("Rate limit retries exhausted")`
raised `from` the last observed error — a failure shape distinguishable from
the propagated original errors of the other failure paths.  (As the
counterexample shows, a merely string-classified rate-limited failure on the
4th attempt instead re-raises the original error, so the claim restricted to
typed errors is what the code satisfies.) -/
theorem C2_typed_exhaustion (calls : Nat → CallOutcome) (m0 m1 m2 m3 : String)
    (h0 : calls 0 = .rateLimitError m0) (h1 : calls 1 = .rateLimitError m1)
    (h2 : calls 2 = .rateLimitError m2) (h3 : calls 3 = .rateLimitError m3) :
    (safe_completion calls).1 =
      .error (.runtimeError ("Rate limit retries exhausted")
        (some (.rateLimit m3))) ∧
    RetriesExhausted (safe_completion calls).1 := by
  have h := safeLoop_allTyped calls m0 m1 m2 m3 h0 h1 h2 h3
  exact ⟨by rw [h], ⟨_, by rw [h]⟩⟩

/-- Witness for C2: a concrete call failing typed-rate-limited on every
attempt ends in the retries-exhausted condition. -/
theorem C2_typed_exhaustion_witness :
    RetriesExhausted (safe_completion (fun _ => .rateLimitError ("slow down"))).1 :=
  (C2_typed_exhaustion _ _ _ _ _ rfl rfl rfl rfl).2

/-- Counterexample to C2 as stated: a wrapped call failing on all 4 attempts
with a generic exception whose message is rate-limit-classified (here
`"HTTP 429"`) does NOT produce the retries-exhausted condition — backend.py
line 42 re-raises the original error on the 4th attempt, because the
string-classified branch only retries while `attempt < 3`. -/
theorem C2_counterexample :
    (∀ i, i < 4 →
      RateClassified ((fun _ => CallOutcome.otherExc ("HTTP 429")) i)) ∧
    (safe_completion (fun _ => .otherExc ("HTTP 429"))).1 =
      .error (.generic ("HTTP 429")) ∧
    ¬ RetriesExhausted (safe_completion (fun _ => .otherExc ("HTTP 429"))).1 := by
  have hc : safe_completion (fun _ => .otherExc ("HTTP 429")) =
      (.error (.generic ("HTTP 429")), [15, 30, 60]) := by rfl
  refine ⟨fun i _ => Or.inr ⟨_, rfl, by rfl⟩, by rw [hc], ?_⟩
  rw [hc]
  rintro ⟨last, hlast⟩
  exact PyExc.noConfusion (Except.error.inj hlast)

/-! ## JSON values and a model of Python's strict `json.loads` -/

/-- A parsed JSON value as produced by Python's `json.loads`: `null`,
booleans, numbers (ints when written without fraction/exponent, otherwise
the decimal value as a rational — the IEEE-754 rounding of the real parser
is irrelevant to every property proved here), the non-standard constants
`NaN` / `Infinity` / `-Infinity` that `json.loads` accepts by default,
strings, arrays, and objects as insertion-ordered key/value lists with
unique keys (last value wins, as in a Python dict). -/
inductive JVal where
  | jnull
  | jbool (b : Bool)
  | jint (n : Int)
  | jfloat (q : Rat)
  | jnan
  | jinf (neg : Bool)
  | jstr (s : String)
  | jarr (elems : List JVal)
  | jobj (fields : List (String × JVal))

/-- Python dict insertion: overwrite in place if the key exists, else append. -/
def dictInsert (kvs : List (String × JVal)) (k : String) (v : JVal) :
    List (String × JVal) :=
  if kvs.any (fun kv => kv.1 == k) then
    kvs.map (fun kv => if kv.1 == k then (k, v) else kv)
  else kvs ++ [(k, v)]

/-- JSON whitespace (what `json.loads` skips between tokens). -/
def isJsonWs (c : Char) : Bool :=
  c = ' ' || c = '\t' || c = '\n' || c = '\r'

/-- Value of a hexadecimal digit. -/
def hexVal? (c : Char) : Option Nat :=
  if c.isDigit then some (c.toNat - 48)
  else if ('a' ≤ c && c ≤ 'f') then some (c.toNat - 87)
  else if ('A' ≤ c && c ≤ 'F') then some (c.toNat - 55)
  else none

/-- The character a short JSON escape `\c` denotes, when valid. -/
def escChar? (c : Char) : Option Char :=
  if c = dquoteChar then some dquoteChar
  else if c = bslashChar then some bslashChar
  else if c = '/' then some '/'
  else if c = 'b' then some (Char.ofNat 8)
  else if c = 'f' then some (Char.ofNat 12)
  else if c = 'n' then some '\n'
  else if c = 'r' then some '\r'
  else if c = 't' then some '\t'
  else none

/-- Parse the body of a JSON string after the opening quote, handling the
escapes `json.loads` accepts and rejecting raw control characters (strict
mode).  Surrogate-pair recombination is omitted: no property here feeds the
parser astral-plane text.  Returns the string and the remaining input. -/
def parseJStr : List Char → Except String (String × List Char)
  | [] => .error ("Unterminated string")
  | c :: rest =>
    if c = dquoteChar then .ok ("", rest)
    else if c = bslashChar then
      match rest with
      | [] => .error ("Unterminated string")
      | e :: r2 =>
        if e = 'u' then
          match r2 with
          | h1 :: h2 :: h3 :: h4 :: r3 =>
            match hexVal? h1, hexVal? h2, hexVal? h3, hexVal? h4 with
            | some a, some b, some c2, some d =>
              match parseJStr r3 with
              | .ok (s, rem) =>
                .ok (⟨Char.ofNat (((a * 16 + b) * 16 + c2) * 16 + d) :: s.data⟩, rem)
              | .error er => .error er
            | _, _, _, _ => .error ("Invalid hex escape")
          | _ => .error ("Invalid hex escape")
        else
          match escChar? e with
          | some ec =>
            match parseJStr r2 with
            | .ok (s, rem) => .ok (⟨ec :: s.data⟩, rem)
            | .error er => .error er
          | none => .error ("Invalid escape")
    else if c.toNat < 32 then .error ("Invalid control character")
    else
      match parseJStr rest with
      | .ok (s, rem) => .ok (⟨c :: s.data⟩, rem)
      | .error er => .error er

/-- Numeric value of a list of decimal digits. -/
def digitsVal (ds : List Char) : Nat :=
  ds.foldl (fun a c => a * 10 + (c.toNat - 48)) 0

/-- Parse a JSON number per the strict grammar
`-?(0|[1-9][0-9]*)(\.[0-9]+)?([eE][+-]?[0-9]+)?` used by `json.loads`,
consuming the longest such token (a malformed fraction or exponent is left
unconsumed, as the Python regex does).  A literal with a fraction or
exponent becomes a float; one whose magnitude reaches the IEEE-754 double
overflow threshold `2^1024 - 2^970` parses to an infinity, exactly as
Python's `float()` rounds it to `inf`. -/
def parseNumber (l : List Char) : Except String (JVal × List Char) :=
  let (neg, l1) :=
    match l with
    | c :: r => if c = '-' then (true, r) else (false, l)
    | [] => (false, ([] : List Char))
  match l1 with
  | [] => .error ("Expecting value")
  | c :: r =>
    if c.isDigit then
      let intDigits := if c = '0' then [c] else l1.takeWhile Char.isDigit
      let afterInt := if c = '0' then r else l1.dropWhile Char.isDigit
      let (fracDigits, afterFrac) :=
        match afterInt with
        | dot :: d :: r2 =>
          if dot = '.' && d.isDigit then
            ((d :: r2).takeWhile Char.isDigit, (d :: r2).dropWhile Char.isDigit)
          else (([] : List Char), afterInt)
        | _ => (([] : List Char), afterInt)
      let (hasExp, expNeg, expDigits, afterExp) :=
        match afterFrac with
        | e :: sgn :: d :: r2 =>
          if (e = 'e' || e = 'E') && (sgn = '+' || sgn = '-') && d.isDigit then
            (true, sgn == '-', (d :: r2).takeWhile Char.isDigit,
              (d :: r2).dropWhile Char.isDigit)
          else if (e = 'e' || e = 'E') && sgn.isDigit then
            (true, false, (sgn :: d :: r2).takeWhile Char.isDigit,
              (sgn :: d :: r2).dropWhile Char.isDigit)
          else (false, false, ([] : List Char), afterFrac)
        | e :: d :: r2 =>
          if (e = 'e' || e = 'E') && d.isDigit then
            (true, false, (d :: r2).takeWhile Char.isDigit,
              (d :: r2).dropWhile Char.isDigit)
          else (false, false, ([] : List Char), afterFrac)
        | _ => (false, false, ([] : List Char), afterFrac)
      let sign : Int := if neg then -1 else 1
      if fracDigits.isEmpty && !hasExp then
        .ok (.jint (sign * (digitsVal intDigits : Int)), afterInt)
      else
        let mantissa : Int := sign * (digitsVal (intDigits ++ fracDigits) : Int)
        let scale : Int :=
          (if expNeg then -(digitsVal expDigits : Int) else (digitsVal expDigits : Int)) -
            (fracDigits.length : Int)
        let q : Rat :=
          if 0 ≤ scale then (mantissa : Rat) * (10 : Rat) ^ scale.toNat
          else (mantissa : Rat) / (10 : Rat) ^ (-scale).toNat
        if (2 : Rat) ^ 1024 - (2 : Rat) ^ 970 ≤ q then .ok (.jinf false, afterExp)
        else if q ≤ -((2 : Rat) ^ 1024 - (2 : Rat) ^ 970) then
          .ok (.jinf true, afterExp)
        else .ok (.jfloat q, afterExp)
    else .error ("Expecting value")

mutual

/-- Parse one JSON value (leading whitespace allowed), following the
dispatch order of Python's scanner.  `fuel` bounds the recursion depth. -/
def parseValue : Nat → List Char → Except String (JVal × List Char)
  | 0, _ => .error ("Too deeply nested")
  | fuel + 1, l =>
    let t := l.dropWhile isJsonWs
    match t with
    | [] => .error ("Expecting value")
    | c :: rest =>
      if c = dquoteChar then
        match parseJStr rest with
        | .ok (s, rem) => .ok (.jstr s, rem)
        | .error er => .error er
      else if c = lbraceChar then
        match rest.dropWhile isJsonWs with
        | d :: r2 =>
          if d = rbraceChar then .ok (.jobj [], r2)
          else parseMember fuel [] rest
        | [] => .error ("Expecting property name")
      else if c = lbrackChar then
        match rest.dropWhile isJsonWs with
        | d :: r2 =>
          if d = rbrackChar then .ok (.jarr [], r2)
          else parseElem fuel [] rest
        | [] => .error ("Expecting value")
      else if isPrefixL (("null").data) t then .ok (.jnull, t.drop 4)
      else if isPrefixL (("true").data) t then .ok (.jbool true, t.drop 4)
      else if isPrefixL (("false").data) t then .ok (.jbool false, t.drop 5)
      else if isPrefixL (("NaN").data) t then .ok (.jnan, t.drop 3)
      else if isPrefixL (("Infinity").data) t then .ok (.jinf false, t.drop 8)
      else if isPrefixL (("-Infinity").data) t then .ok (.jinf true, t.drop 9)
      else parseNumber t

/-- Parse one `"key": value` object member and continue with the rest of the
object body. -/
def parseMember : Nat → List (String × JVal) → List Char →
    Except String (JVal × List Char)
  | 0, _, _ => .error ("Too deeply nested")
  | fuel + 1, acc, l =>
    match l.dropWhile isJsonWs with
    | c :: rest =>
      if c = dquoteChar then
        match parseJStr rest with
        | .ok (k, r2) =>
          match r2.dropWhile isJsonWs with
          | d :: r3 =>
            if d = ':' then
              match parseValue fuel r3 with
              | .ok (v, r4) => parseObjMore fuel (dictInsert acc k v) r4
              | .error er => .error er
            else .error ("Expecting colon")
          | [] => .error ("Expecting colon")
        | .error er => .error er
      else .error ("Expecting property name")
    | [] => .error ("Expecting property name")

/-- After an object member: expect `,` and another member, or `}`. -/
def parseObjMore : Nat → List (String × JVal) → List Char →
    Except String (JVal × List Char)
  | 0, _, _ => .error ("Too deeply nested")
  | fuel + 1, acc, l =>
    match l.dropWhile isJsonWs with
    | c :: rest =>
      if c = rbraceChar then .ok (.jobj acc, rest)
      else if c = ',' then parseMember fuel acc rest
      else .error ("Expecting comma")
    | [] => .error ("Expecting comma")

/-- Parse one array element and continue with the rest of the array body. -/
def parseElem : Nat → List JVal → List Char →
    Except String (JVal × List Char)
  | 0, _, _ => .error ("Too deeply nested")
  | fuel + 1, acc, l =>
    match parseValue fuel l with
    | .ok (v, rem) => parseArrMore fuel (acc ++ [v]) rem
    | .error er => .error er

/-- After an array element: expect `,` and another element, or `]`. -/
def parseArrMore : Nat → List JVal → List Char →
    Except String (JVal × List Char)
  | 0, _, _ => .error ("Too deeply nested")
  | fuel + 1, acc, l =>
    match l.dropWhile isJsonWs with
    | c :: rest =>
      if c = rbrackChar then .ok (.jarr acc, rest)
      else if c = ',' then parseElem fuel acc rest
      else .error ("Expecting comma")
    | [] => .error ("Expecting comma")

end

/-- Python's strict `json.loads`: parse one value and require that only
whitespace follows (else `Extra data`). -/
def jsonLoads (s : String) : Except String JVal :=
  match parseValue (4 * s.data.length + 8) s.data with
  | .ok (v, rest) =>
    if (rest.dropWhile isJsonWs).isEmpty then .ok v
    else .error ("Extra data")
  | .error e => .error e

example : jsonLoads ("\x7b\"a\": 1\x7d") = .ok (.jobj [(("a"), .jint 1)]) := by rfl
example : jsonLoads (" [true, null, \"x\"] ") =
    .ok (.jarr [.jbool true, .jnull, .jstr ("x")]) := by rfl
example : jsonLoads ("7") = .ok (.jint 7) := by rfl
example : jsonLoads ("\x7b'a': 1\x7d") = .error ("Expecting property name") := by rfl
example : jsonLoads ("hello") = .error ("Expecting value") := by rfl

/-! ## The resilient JSON extractor (backend.py lines 47-75) -/

/-- `re.sub(r"^```(?:json)?\s*", "", text, flags=re.IGNORECASE)`
(backend.py line 49): strip one leading code-fence marker, an optional
case-insensitive `json` tag, and the whitespace after them. -/
def stripLeadFence (l : List Char) : List Char :=
  if isPrefixL (("```").data) l then
    let r := l.drop 3
    let r2 := if isPrefixL (("json").data) (r.map Char.toLower) then r.drop 4 else r
    r2.dropWhile isPySpace
  else l

/-- `re.sub(r"\s*```$", "", text)` (backend.py line 50): remove a trailing
code-fence marker and the whitespace before it; as in Python, `$` also
matches just before one final newline, which is then kept. -/
def stripTrailFence (l : List Char) : List Char :=
  let rev := l.reverse
  if isPrefixL (("```").data) rev then
    ((rev.drop 3).dropWhile isPySpace).reverse
  else
    match rev with
    | nl :: r2 =>
      if nl = '\n' && isPrefixL (("```").data) r2 then
        (((r2.drop 3).dropWhile isPySpace).reverse) ++ [nl]
      else l
    | [] => l

/-- `text.find("{")` / `text.rfind("}")` slicing (backend.py lines 53-56):
cut to the span from the first opening brace to the last closing brace when
both exist in that order. -/
def sliceBraces (l : List Char) : List Char :=
  match l.findIdx? (· = lbraceChar),
      (l.reverse.findIdx? (· = rbraceChar)).map (fun i => l.length - 1 - i) with
  | some s, some e => if s < e then (l.take (e + 1)).drop s else l
  | _, _ => l

/-- `re.sub(r",\s*([}\]])", r"\1", text)` scanning loop: on a comma followed
(up to whitespace) by a closing brace or bracket, emit the bracket and
continue after it; otherwise copy one character.  `fuel` only bounds the
recursion; every step consumes at least one character, so
`fixCommas` below always supplies enough. -/
def fixCommasF : Nat → List Char → List Char
  | 0, l => l
  | _, [] => []
  | fuel + 1, c :: rest =>
    if c = ',' then
      match rest.dropWhile isPySpace with
      | d :: tail =>
        if d = rbraceChar || d = rbrackChar then d :: fixCommasF fuel tail
        else c :: fixCommasF fuel rest
      | [] => c :: fixCommasF fuel rest
    else c :: fixCommasF fuel rest

/-- `re.sub(r",\s*([}\]])", r"\1", text)` (backend.py line 58): drop every
comma that is followed (up to whitespace) by a closing brace or bracket. -/
def fixCommas (l : List Char) : List Char :=
  fixCommasF (l.length + 1) l

/-- `_extract_json_object` (backend.py lines 47-59): trim, strip fences,
trim, slice to the outermost braces, drop trailing commas. -/
def _extract_json_object (rawText : String) : String :=
  let t0 := pyStripL rawText.data
  let t1 := stripLeadFence t0
  let t2 := stripTrailFence t1
  let t3 := pyStripL t2
  let t4 := sliceBraces t3
  ⟨fixCommas t4⟩

/-- `cleaned.replace("'", '"')` (backend.py line 72). -/
def swapQuotes (s : String) : String :=
  ⟨s.data.map (fun c => if c = squoteChar then dquoteChar else c)⟩

/-- `_safe_json_parse` (backend.py lines 62-75): strict parse of the
extracted text; on failure, one retry with single quotes replaced by double
quotes; on failure again, the sentinel `None`. -/
def _safe_json_parse (rawText : String) : Option JVal :=
  let cleaned := _extract_json_object rawText
  match jsonLoads cleaned with
  | .ok v => some v
  | .error _ =>
    match jsonLoads (swapQuotes cleaned) with
    | .ok v => some v
    | .error _ => none

/-- Whether an `Except` result is a success. -/
def isOkB : Except String JVal → Bool
  | .ok _ => true
  | .error _ => false

example : _extract_json_object ("```json\n\x7b\"a\": 1,\x7d\n```") =
    ("\x7b\"a\": 1\x7d") := by rfl
example : _extract_json_object ("Sure! \x7b'winner': 'Coding'\x7d thanks") =
    ("\x7b'winner': 'Coding'\x7d") := by rfl

/-- C4 (corrected): the extractor pipeline yields `{"a": 1}` for the fenced
trailing-comma input and `{"winner": "Coding"}` for the prose-wrapped
single-quoted input; and whenever both the strict parse of the extracted
text and its quote-swapped retry fail, the result is the no-object sentinel
`None`.  (Amending the claim: a brace-free input is NOT always the sentinel —
as the counterexample shows, a brace-free input that is itself valid JSON,
such as a bare number, is returned parsed.) -/
theorem C4_extractor_pipeline :
    _safe_json_parse ("```json\n\x7b\"a\": 1,\x7d\n```") =
      some (.jobj [(("a"), .jint 1)]) ∧
    _safe_json_parse ("Sure! \x7b'winner': 'Coding'\x7d thanks") =
      some (.jobj [(("winner"), .jstr ("Coding"))]) ∧
    ∀ s : String, isOkB (jsonLoads (_extract_json_object s)) = false →
      isOkB (jsonLoads (swapQuotes (_extract_json_object s))) = false →
      _safe_json_parse s = none := by
  refine ⟨by rfl, by rfl, ?_⟩
  intro s h1 h2
  unfold _safe_json_parse
  cases hj : jsonLoads (_extract_json_object s) with
  | ok v => rw [hj] at h1; exact absurd h1 (by simp [isOkB])
  | error e =>
    cases hj2 : jsonLoads (swapQuotes (_extract_json_object s)) with
    | ok v => rw [hj2] at h2; exact absurd h2 (by simp [isOkB])
    | error e2 => simp [hj, hj2]

/-- Witness for C4: a plain-prose input on which both parse attempts fail
recovers the sentinel. -/
theorem C4_extractor_pipeline_witness :
    _safe_json_parse ("no json here") = none :=
  C4_extractor_pipeline.2.2 ("no json here") (by rfl) (by rfl)

/-- Counterexample to C4 as stated: the input `"7"` contains no braces at
all, yet extraction yields the parsed value `7`, not the no-object sentinel —
`json.loads` accepts any JSON value, not only objects, and the sliced text
is parsed as-is. -/
theorem C4_counterexample :
    (("7") : String).data.all
        (fun c => !(c = lbraceChar || c = rbraceChar)) = true ∧
    _safe_json_parse ("7") = some (.jint 7) ∧
    _safe_json_parse ("7") ≠ none := by
  refine ⟨by rfl, by rfl, ?_⟩
  intro h
  rw [show _safe_json_parse ("7") = some (.jint 7) from rfl] at h
  exact Option.noConfusion h

/-- C5 (confirmed): `_safe_json_parse` is a total function into
`Option JVal` — a parse failure can never escape it — and it returns the
sentinel `none` exactly when both the strict parse and the quote-swapped
retry fail; every parse error is converted to the sentinel rather than
propagated. -/
theorem C5_no_raise (s : String) :
    _safe_json_parse s = none ↔
      (isOkB (jsonLoads (_extract_json_object s)) = false ∧
        isOkB (jsonLoads (swapQuotes (_extract_json_object s))) = false) := by
  unfold _safe_json_parse
  cases hj : jsonLoads (_extract_json_object s) with
  | ok v => simp [hj, isOkB]
  | error e =>
    cases hj2 : jsonLoads (swapQuotes (_extract_json_object s)) with
    | ok v => simp [hj, hj2, isOkB]
    | error e2 => simp [hj, hj2, isOkB]

/-! ## Judge, fan-out and fuser (backend.py lines 78-275)

The network call itself is abstracted by the per-attempt oracle
`calls : Nat → CallOutcome` already used for `safe_completion`; the prompt
strings sent with the call do not influence the modelled control flow. -/

/-- `CODING_SYSTEM` (backend.py lines 78-82). -/
def CODING_SYSTEM : String :=
  ("You are a world-class coding agent prompt engineer. Optimize for clarity, ") ++
    ("step-by-step reasoning, strict JSON/YAML output, tool calls if needed, ") ++
    ("error handling, acceptance criteria.")

/-- `RESEARCH_SYSTEM` (backend.py lines 84-88). -/
def RESEARCH_SYSTEM : String :=
  ("You are an expert AI research prompt optimizer. Include hypothesis, ") ++
    ("variables/definitions, methodology, reproducibility notes, expected analysis, ") ++
    ("success metrics.")

/-- `CONCISE_SYSTEM` (backend.py lines 90-93). -/
def CONCISE_SYSTEM : String :=
  ("Make the shortest possible effective version of this prompt while preserving ") ++
    ("100% intent. Remove fluff, combine ideas.")

/-- `STRUCTURED_SYSTEM` (backend.py lines 95-98). -/
def STRUCTURED_SYSTEM : String :=
  ("Force perfect structure: ROLE + CLEAR TASK + STEP-BY-STEP INSTRUCTIONS + ") ++
    ("OUTPUT FORMAT + CONSTRAINTS + 1-2 EXAMPLES.")

/-- Tail of Python's `int()` digit grammar: digits with single underscores
allowed only between digits (no leading, trailing or doubled underscore). -/
def pyDigitsTail : List Char → Bool
  | [] => true
  | c :: rest =>
    if c.isDigit then pyDigitsTail rest
    else if c = '_' then
      match rest with
      | d :: rest2 => d.isDigit && pyDigitsTail rest2
      | [] => false
    else false

/-- Python's `int()` digit run: non-empty, starts with a digit, single
underscores only between digits. -/
def pyDigitsOk : List Char → Bool
  | [] => false
  | c :: rest => c.isDigit && pyDigitsTail rest

/-- Python `int(value)` on a decoded JSON string: optional surrounding
whitespace, optional sign, then a digit run with optional single
underscores between digits.  Only ASCII digits are modelled; CPython
additionally accepts any Unicode decimal digit. -/
def pyIntOfStr? (s : String) : Option Int :=
  let t := pyStripL s.data
  let (neg, ds) :=
    match t with
    | c :: r =>
      if c = '-' then (true, r) else if c = '+' then (false, r) else (false, t)
    | [] => (false, ([] : List Char))
  if pyDigitsOk ds then
    some ((if neg then -1 else 1) *
      (digitsVal (ds.filter (fun c => c != '_')) : Int))
  else none

/-- The value Python's `int(value)` returns on a decoded JSON value when
the coercion succeeds, `none` when it raises any error: ints pass through,
floats truncate toward zero, booleans map to 0/1, digit strings parse.
Which of the raising cases the score loop's `except` clause catches is
recorded by `pyIntCoerce`. -/
def pyInt? : JVal → Option Int
  | .jint n => some n
  | .jfloat q => some (Int.tdiv q.num (q.den : Int))
  | .jbool b => some (if b then 1 else 0)
  | .jstr s => pyIntOfStr? s
  | _ => none

/-- Outcome of `int(value)` as seen by the score-normalization loop's
`except (TypeError, ValueError)` (backend.py line 225): a successful value,
a caught-and-skipped error, or an uncaught error that escapes the loop. -/
inductive PyCoerce where
  | val (n : Int)
  | skip
  | raiseOverflow
deriving DecidableEq

/-- Python `int(value)` with its exception taxonomy: success; a caught
`TypeError` (null/list/dict) or `ValueError` (non-numeric string, NaN); or
the UNCAUGHT `OverflowError` that `int` raises on an infinite float — the
one coercion error `except (TypeError, ValueError)` does not stop. -/
def pyIntCoerce : JVal → PyCoerce
  | .jint n => .val n
  | .jfloat q => .val (Int.tdiv q.num (q.den : Int))
  | .jbool b => .val (if b then 1 else 0)
  | .jstr s =>
    match pyIntOfStr? s with
    | some n => .val n
    | none => .skip
  | .jnan => .skip
  | .jinf _ => .raiseOverflow
  | .jnull => .skip
  | .jarr _ => .skip
  | .jobj _ => .skip

/-- `variant_names = list(results.keys())` (backend.py line 175). -/
def variantNames (results : List (String × String)) : List String :=
  results.map Prod.fst

/-- `default_scores = {name: 6 for name in variant_names}` (line 176). -/
def defaultScores (results : List (String × String)) : List (String × Int) :=
  (variantNames results).map (fun n => (n, 6))

/-- Python dict key access `d.get(k)` on an insertion-ordered mapping. -/
def pyGet {β : Type} : List (String × β) → String → Option β
  | [], _ => none
  | (a, b) :: rest, k => if k = a then some b else pyGet rest k

/-- Python membership `w in names`. -/
def pyIn : List String → String → Bool
  | [], _ => false
  | n :: rest, w => if w = n then true else pyIn rest w

/-- The score-normalization loop of backend.py lines 220-226: keep, in
order, the judge-scored entries whose values coerce to `int`, skipping an
entry whose coercion raises a caught `TypeError`/`ValueError`; an uncaught
`OverflowError` (an infinite float) aborts the whole build — the exception
propagates to the outer handler of line 237 and every entry is discarded. -/
def coerceScoresE : List (String × JVal) → Except String (List (String × Int))
  | [] => .ok []
  | (k, v) :: rest =>
    match pyIntCoerce v with
    | .val n =>
      match coerceScoresE rest with
      | .ok scored => .ok ((k, n) :: scored)
      | .error e => .error e
    | .skip => coerceScoresE rest
    | .raiseOverflow => .error ("cannot convert float infinity to integer")

/-- The default-filling loop of backend.py lines 228-230: append `(n, 6)`
for every variant name not already scored. -/
def fillDefaults : List String → List (String × Int) → List (String × Int)
  | [], scores => scores
  | n :: rest, scores =>
    if (pyGet scores n).isSome then fillDefaults rest scores
    else fillDefaults rest (scores ++ [(n, 6)])

/-- Python `max(scores.items(), key=lambda kv: kv[1])`: the first item
attaining the maximal value (ties keep the earlier item). -/
def pyMaxBySnd : List (String × Int) → Option (String × Int)
  | [] => none
  | kv :: rest =>
    some (rest.foldl (fun best x => if best.2 < x.2 then x else best) kv)

/-- The winner recomputation of backend.py line 233:
`max(scores.items(), key=...)[0] if scores else "Unknown"`. -/
def recomputeWinner (scores : List (String × Int)) : String :=
  match pyMaxBySnd scores with
  | some kv => kv.1
  | none => ("Unknown")

/-- `parsed.get("scores", {})` restricted to the dict case (backend.py
lines 216 and 221): the scored entries when the field is an object,
otherwise nothing. -/
def scoresObjOf (kvs : List (String × JVal)) : List (String × JVal) :=
  match pyGet kvs ("scores") with
  | some (.jobj skvs) => skvs
  | _ => []

/-- `isinstance(parsed, dict)` (backend.py line 212): the field list when
the recovered value is an object, `none` otherwise. -/
def asObj? : Option JVal → Option (List (String × JVal))
  | some (.jobj kvs) => some kvs
  | _ => none

/-- The winner validation test of backend.py line 232: the claimed winner
when `parsed.get("winner")` is a string that is one of the real variant
category names, `none` when it must be recomputed. -/
def validWinner? (results : List (String × String))
    (kvs : List (String × JVal)) : Option String :=
  match pyGet kvs ("winner") with
  | some (.jstr w) => if pyIn (variantNames results) w then some w else none
  | _ => none

/-- The response handling of `get_winner_and_scores` after JSON recovery
(backend.py lines 212-239): fallback for a non-dict parse, score coercion
and default filling, and winner validation.  When the coercion loop raises
its uncaught `OverflowError`, control reaches the function's outer
`except Exception` handler (lines 237-239), which falls back to the first
variant name (or `"Error: " + str(e)` when there are no variants) with
all-default scores. -/
def judgeFromParsed (results : List (String × String)) (parsed : Option JVal) :
    String × List (String × Int) :=
  match asObj? parsed with
  | some kvs =>
    match coerceScoresE (scoresObjOf kvs) with
    | .ok scores0 =>
      let scores := fillDefaults (variantNames results) scores0
      let winner :=
        match validWinner? results kvs with
        | some w => w
        | none => recomputeWinner scores
      (winner, scores)
    | .error e =>
      ((variantNames results).headD (("Error: ") ++ e), defaultScores results)
  | none => ((variantNames results).headD ("Unknown"), defaultScores results)

/-- `get_winner_and_scores` (backend.py lines 168-239) with the judge call's
attempt outcomes given by `calls`: on a call-level error the winner falls
back to the first variant name (or an error-tagged string when there are no
variants) with all-default scores. -/
def get_winner_and_scores (results : List (String × String))
    (calls : Nat → CallOutcome) : String × List (String × Int) :=
  match (safe_completion calls).1 with
  | .ok content => judgeFromParsed results (_safe_json_parse content)
  | .error e =>
    ((variantNames results).headD (("Error: ") ++ pyStr e), defaultScores results)

/-- The judge-scored raw entries reaching the coercion loop for a given call
outcome: the parsed `scores` object on a successful, object-parsed response,
nothing otherwise. -/
def judgeRawScores (calls : Nat → CallOutcome) : List (String × JVal) :=
  match (safe_completion calls).1 with
  | .ok content =>
    match asObj? (_safe_json_parse content) with
    | some kvs => scoresObjOf kvs
    | none => []
  | .error _ => []

/-- The fusion user prompt of backend.py lines 249-258: the variants under
labeled headings joined by horizontal delimiters, after the fixed merge
instruction. -/
def buildFusionPrompt (results : List (String × String)) : String :=
  ("Combine the best parts of these 4 optimized prompts into one ultimate, ") ++
    ("balanced version: [paste all 4 separated by ---]\n\n") ++
    (("\n\n---\n\n").intercalate
      (results.map (fun kv => ("### ") ++ kv.1 ++ (" Variant\n") ++ kv.2)))

/-- `get_fusion` (backend.py lines 242-275): the completion content on
success, `"Error: " + str(e)` on any failure. -/
def get_fusion (results : List (String × String))
    (calls : Nat → CallOutcome) : String :=
  let _userPrompt := buildFusionPrompt results
  match (safe_completion calls).1 with
  | .ok content => content
  | .error e => ("Error: ") ++ pyStr e

/-- `_optimize_prompt` (backend.py lines 109-127): the completion content on
success, `"Error: " + str(e)` when the guarded call raises. -/
def _optimize_prompt (calls : Nat → CallOutcome) : String :=
  match (safe_completion calls).1 with
  | .ok content => content
  | .error e => ("Error: ") ++ pyStr e

/-- Whether the batch machinery of `run_optimizers` outside the individually
guarded calls (the `gather`/`sleep` scaffolding of backend.py lines 140-149)
runs normally or itself raises. -/
inductive BatchOutcome where
  | normal
  | outerError (e : PyExc)

/-- `run_optimizers` (backend.py lines 130-165): four independently guarded
optimizer calls producing the category-keyed mapping; if the surrounding
batch machinery throws, every category falls back to the same error string
(lines 157-165). -/
def run_optimizers
    (codingCalls researchCalls conciseCalls structuredCalls : Nat → CallOutcome)
    (batch : BatchOutcome) : List (String × String) :=
  match batch with
  | .normal =>
    [(("Coding"), _optimize_prompt codingCalls),
      (("Research"), _optimize_prompt researchCalls),
      (("Concise"), _optimize_prompt conciseCalls),
      (("Structured"), _optimize_prompt structuredCalls)]
  | .outerError e =>
    let errorMsg := ("Error: ") ++ pyStr e
    [(("Coding"), errorMsg), (("Research"), errorMsg),
      (("Concise"), errorMsg), (("Structured"), errorMsg)]

/-! ## Helper lemmas about the judge's score-map construction -/

theorem pyGet_append_some {β : Type} {l1 : List (String × β)}
    (l2 : List (String × β)) {k : String} {v : β}
    (h : pyGet l1 k = some v) : pyGet (l1 ++ l2) k = some v := by
  induction l1 with
  | nil => simp [pyGet] at h
  | cons kv rest ih =>
    obtain ⟨a, b⟩ := kv
    rw [List.cons_append]
    by_cases hka : k = a
    · simpa [pyGet, hka] using h
    · rw [pyGet, if_neg hka] at h ⊢
      exact ih h

theorem pyGet_append_none {β : Type} {l1 : List (String × β)}
    (l2 : List (String × β)) {k : String}
    (h : pyGet l1 k = none) : pyGet (l1 ++ l2) k = pyGet l2 k := by
  induction l1 with
  | nil => rfl
  | cons kv rest ih =>
    obtain ⟨a, b⟩ := kv
    by_cases hka : k = a
    · rw [pyGet, if_pos hka] at h; exact Option.noConfusion h
    · rw [List.cons_append, pyGet, if_neg hka] at *
      exact ih h

theorem pyGet_append_single {l : List (String × Int)} {n k : String} {x v : Int}
    (h : pyGet (l ++ [(n, x)]) k = some v) : pyGet l k = some v ∨ v = x := by
  induction l with
  | nil =>
    rw [List.nil_append] at h
    by_cases hkn : k = n
    · rw [pyGet, if_pos hkn] at h
      exact Or.inr (Option.some.inj h).symm
    · rw [pyGet, if_neg hkn] at h
      exact Option.noConfusion h
  | cons kv rest ih =>
    obtain ⟨a, b⟩ := kv
    by_cases hka : k = a
    · rw [List.cons_append, pyGet, if_pos hka] at h
      exact Or.inl (by rw [pyGet, if_pos hka]; exact h)
    · rw [List.cons_append, pyGet, if_neg hka] at h
      rcases ih h with hl | hx
      · exact Or.inl (by rw [pyGet, if_neg hka]; exact hl)
      · exact Or.inr hx

theorem pyGet_mem_keys {β : Type} {l : List (String × β)} {k : String} {v : β}
    (h : pyGet l k = some v) : k ∈ l.map Prod.fst := by
  induction l with
  | nil => simp [pyGet] at h
  | cons kv rest ih =>
    obtain ⟨a, b⟩ := kv
    by_cases hka : k = a
    · subst hka; simp
    · rw [pyGet, if_neg hka] at h
      simpa using Or.inr (ih h)

theorem pyIn_mem {names : List String} {w : String}
    (h : pyIn names w = true) : w ∈ names := by
  induction names with
  | nil => simp [pyIn] at h
  | cons n rest ih =>
    by_cases hwn : w = n
    · subst hwn; exact List.mem_cons_self _ _
    · rw [pyIn, if_neg hwn] at h
      exact List.mem_cons_of_mem _ (ih h)

theorem fillDefaults_preserve {names : List String} {l : List (String × Int)}
    {k : String} {v : Int} (h : pyGet l k = some v) :
    pyGet (fillDefaults names l) k = some v := by
  induction names generalizing l with
  | nil => simpa [fillDefaults] using h
  | cons n rest ih =>
    rw [fillDefaults]
    by_cases hn : (pyGet l n).isSome
    · rw [if_pos hn]; exact ih h
    · rw [if_neg hn]; exact ih (pyGet_append_some _ h)

theorem fillDefaults_covers {names : List String}
    {k : String} (hk : k ∈ names) (l : List (String × Int)) :
    (pyGet (fillDefaults names l) k).isSome := by
  induction names generalizing l with
  | nil => cases hk
  | cons n rest ih =>
    rw [fillDefaults]
    rcases List.mem_cons.mp hk with rfl | hmem
    · by_cases hn : (pyGet l k).isSome
      · rw [if_pos hn]
        obtain ⟨v, hv⟩ := Option.isSome_iff_exists.mp hn
        rw [fillDefaults_preserve hv]; rfl
      · rw [if_neg hn]
        have hnone : pyGet l k = none := by
          cases hg : pyGet l k
          · rfl
          · rw [hg] at hn; exact absurd rfl hn
        have hx : pyGet (l ++ [(k, 6)]) k = some 6 := by
          rw [pyGet_append_none _ hnone, pyGet, if_pos rfl]
        rw [fillDefaults_preserve hx]; rfl
    · by_cases hn : (pyGet l n).isSome
      · rw [if_pos hn]; exact ih hmem _
      · rw [if_neg hn]; exact ih hmem _

theorem fillDefaults_six {names : List String} {l : List (String × Int)}
    {k : String} {v : Int} (h : pyGet (fillDefaults names l) k = some v) :
    pyGet l k = some v ∨ v = 6 := by
  induction names generalizing l with
  | nil => exact Or.inl (by simpa [fillDefaults] using h)
  | cons n rest ih =>
    rw [fillDefaults] at h
    by_cases hn : (pyGet l n).isSome
    · rw [if_pos hn] at h; exact ih h
    · rw [if_neg hn] at h
      rcases ih h with hl | h6
      · exact pyGet_append_single hl
      · exact Or.inr h6

theorem pyMax_foldl_mem (rest : List (String × Int)) (kv : String × Int) :
    rest.foldl (fun best x => if best.2 < x.2 then x else best) kv = kv ∨
      rest.foldl (fun best x => if best.2 < x.2 then x else best) kv ∈ rest := by
  induction rest generalizing kv with
  | nil => exact Or.inl rfl
  | cons y ys ih =>
    rw [List.foldl_cons]
    rcases ih (if kv.2 < y.2 then y else kv) with h | h
    · rw [h]
      by_cases hc : kv.2 < y.2
      · rw [if_pos hc]; exact Or.inr (List.mem_cons_self _ _)
      · rw [if_neg hc]; exact Or.inl rfl
    · exact Or.inr (List.mem_cons_of_mem _ h)

theorem pyMaxBySnd_mem {l : List (String × Int)} (h : l ≠ []) :
    ∃ kv, pyMaxBySnd l = some kv ∧ kv ∈ l := by
  cases l with
  | nil => exact absurd rfl h
  | cons kv rest =>
    refine ⟨_, rfl, ?_⟩
    rcases pyMax_foldl_mem rest kv with h1 | h1
    · rw [h1]; exact List.mem_cons_self _ _
    · exact List.mem_cons_of_mem _ h1

theorem pyIntCoerce_val_iff {v : JVal} {n : Int} :
    pyIntCoerce v = .val n ↔ pyInt? v = some n := by
  cases v with
  | jnull => simp [pyIntCoerce, pyInt?]
  | jbool b => simp [pyIntCoerce, pyInt?]
  | jint m => simp [pyIntCoerce, pyInt?]
  | jfloat q => simp [pyIntCoerce, pyInt?]
  | jnan => simp [pyIntCoerce, pyInt?]
  | jinf b => simp [pyIntCoerce, pyInt?]
  | jstr s =>
    cases h : pyIntOfStr? s with
    | some m => simp [pyIntCoerce, pyInt?, h]
    | none => simp [pyIntCoerce, pyInt?, h]
  | jarr xs => simp [pyIntCoerce, pyInt?]
  | jobj f => simp [pyIntCoerce, pyInt?]

theorem coerceScoresE_ok_of_no_raise {kvs : List (String × JVal)}
    (h : ∀ kv ∈ kvs, pyIntCoerce kv.2 ≠ .raiseOverflow) :
    ∃ scored, coerceScoresE kvs = .ok scored := by
  induction kvs with
  | nil => exact ⟨[], rfl⟩
  | cons kv rest ih =>
    obtain ⟨a, b⟩ := kv
    have hb := h (a, b) (List.mem_cons_self _ _)
    obtain ⟨scored, hs⟩ := ih (fun kv hkv => h kv (List.mem_cons_of_mem _ hkv))
    cases hc : pyIntCoerce b with
    | val n =>
      refine ⟨(a, n) :: scored, ?_⟩
      simp only [coerceScoresE, hc, hs]
    | skip =>
      refine ⟨scored, ?_⟩
      simp only [coerceScoresE, hc]
      exact hs
    | raiseOverflow => exact absurd hc hb

theorem coerceScoresE_mem {kvs : List (String × JVal)}
    {scored : List (String × Int)} {k : String} {v : Int}
    (hok : coerceScoresE kvs = .ok scored)
    (h : pyGet scored k = some v) :
    ∃ raw, (k, raw) ∈ kvs ∧ pyInt? raw = some v := by
  induction kvs generalizing scored with
  | nil =>
    have hsc : ([] : List (String × Int)) = scored := Except.ok.inj hok
    rw [← hsc] at h
    simp [pyGet] at h
  | cons kv rest ih =>
    obtain ⟨a, b⟩ := kv
    cases hcb : pyIntCoerce b with
    | val m =>
      simp only [coerceScoresE, hcb] at hok
      cases hrest : coerceScoresE rest with
      | ok s2 =>
        rw [hrest] at hok
        have hsc : scored = (a, m) :: s2 := (Except.ok.inj hok).symm
        subst hsc
        by_cases hka : k = a
        · subst hka
          rw [pyGet, if_pos rfl] at h
          have hv : m = v := Option.some.inj h
          exact ⟨b, List.mem_cons_self _ _,
            by rw [← hv]; exact pyIntCoerce_val_iff.mp hcb⟩
        · rw [pyGet, if_neg hka] at h
          obtain ⟨raw, hm, hcr⟩ := ih hrest h
          exact ⟨raw, List.mem_cons_of_mem _ hm, hcr⟩
      | error e => rw [hrest] at hok; exact Except.noConfusion hok
    | skip =>
      simp only [coerceScoresE, hcb] at hok
      obtain ⟨raw, hm, hcr⟩ := ih hok h
      exact ⟨raw, List.mem_cons_of_mem _ hm, hcr⟩
    | raiseOverflow =>
      simp only [coerceScoresE, hcb] at hok
      exact Except.noConfusion hok

theorem coerceScoresE_pyGet {kvs : List (String × JVal)}
    {scored : List (String × Int)} {k : String} {raw : JVal} {n : Int}
    (hok : coerceScoresE kvs = .ok scored)
    (h : pyGet kvs k = some raw) (hc : pyInt? raw = some n) :
    pyGet scored k = some n := by
  induction kvs generalizing scored with
  | nil => simp [pyGet] at h
  | cons kv rest ih =>
    obtain ⟨a, b⟩ := kv
    by_cases hka : k = a
    · subst hka
      rw [pyGet, if_pos rfl] at h
      have hb : pyIntCoerce b = .val n := by
        rw [pyIntCoerce_val_iff, Option.some.inj h]
        exact hc
      simp only [coerceScoresE, hb] at hok
      cases hrest : coerceScoresE rest with
      | ok s2 =>
        rw [hrest] at hok
        have hsc : scored = (k, n) :: s2 := (Except.ok.inj hok).symm
        subst hsc
        rw [pyGet, if_pos rfl]
      | error e => rw [hrest] at hok; exact Except.noConfusion hok
    · rw [pyGet, if_neg hka] at h
      cases hcb : pyIntCoerce b with
      | val m =>
        simp only [coerceScoresE, hcb] at hok
        cases hrest : coerceScoresE rest with
        | ok s2 =>
          rw [hrest] at hok
          have hsc : scored = (a, m) :: s2 := (Except.ok.inj hok).symm
          subst hsc
          rw [pyGet, if_neg hka]
          exact ih hrest h
        | error e => rw [hrest] at hok; exact Except.noConfusion hok
      | skip =>
        simp only [coerceScoresE, hcb] at hok
        exact ih hok h
      | raiseOverflow =>
        simp only [coerceScoresE, hcb] at hok
        exact Except.noConfusion hok

theorem pyGet_defaultScores {names : List String} {k : String} (h : k ∈ names) :
    pyGet (names.map (fun n => (n, (6 : Int)))) k = some 6 := by
  induction names with
  | nil => cases h
  | cons n rest ih =>
    rcases List.mem_cons.mp h with rfl | hmem
    · rw [List.map_cons, pyGet, if_pos rfl]
    · by_cases hkn : k = n
      · rw [List.map_cons, pyGet, if_pos hkn]
      · rw [List.map_cons, pyGet, if_neg hkn]; exact ih hmem

theorem validWinner_pyIn {results : List (String × String)}
    {kvs : List (String × JVal)} {w : String}
    (h : validWinner? results kvs = some w) :
    pyIn (variantNames results) w = true := by
  unfold validWinner? at h
  cases hg : pyGet kvs ("winner") with
  | none => rw [hg] at h; exact Option.noConfusion h
  | some jv =>
    rw [hg] at h
    cases jv with
    | jstr s =>
      have h' : (if pyIn (variantNames results) s = true then some s else none) =
          some w := h
      by_cases hin : pyIn (variantNames results) s = true
      · rw [if_pos hin] at h'
        rw [← Option.some.inj h']; exact hin
      · rw [if_neg hin] at h'; exact Option.noConfusion h'
    | jnull => exact Option.noConfusion h
    | jbool b => exact Option.noConfusion h
    | jint n => exact Option.noConfusion h
    | jfloat q => exact Option.noConfusion h
    | jnan => exact Option.noConfusion h
    | jinf b => exact Option.noConfusion h
    | jarr xs => exact Option.noConfusion h
    | jobj f => exact Option.noConfusion h

/-- C3 (corrected): on a rate-limit-classified failure with attempts
remaining the controller sleeps `15 * 2^attempt` seconds; three
rate-classified failures followed by a success return the success after
exactly the sleeps 15, 30, 60; a non-rate-classified error propagates
immediately with zero sleeps; but (amending the claim) a TYPED rate-limit
error on the final attempt still sleeps, so four typed failures sleep
15, 30, 60, 120 with no attempt following the 120-second sleep. -/
theorem C3_backoff_schedule (calls : Nat → CallOutcome) :
    (RateClassified (calls 0) → RateClassified (calls 1) →
      RateClassified (calls 2) → ∀ t, calls 3 = .success t →
      safe_completion calls = (.ok t, [15, 30, 60])) ∧
    (∀ m, calls 0 = .otherExc m → isRateLimitedMsg m = false →
      safe_completion calls = (.error (.generic m), [])) ∧
    (∀ m0 m1 m2 m3, calls 0 = .rateLimitError m0 →
      calls 1 = .rateLimitError m1 → calls 2 = .rateLimitError m2 →
      calls 3 = .rateLimitError m3 →
      (safe_completion calls).2 = [15, 30, 60, 120]) := by
  refine ⟨?_, ?_, ?_⟩
  · intro hc0 hc1 hc2 t ht
    obtain ⟨e0, he0⟩ := attemptStep_classified _ 0 hc0 (by decide)
    obtain ⟨e1, he1⟩ := attemptStep_classified _ 1 hc1 (by decide)
    obtain ⟨e2, he2⟩ := attemptStep_classified _ 2 hc2 (by decide)
    have he3 : attemptStep (calls 3) 3 = .done (.ok t) := by rw [ht]; rfl
    simp [safe_completion, safeLoop, he0, he1, he2, he3]
  · intro m hm hrate
    simp [safe_completion, safeLoop, attemptStep, hm, hrate]
  · intro m0 m1 m2 m3 h0 h1 h2 h3
    rw [safeLoop_allTyped calls m0 m1 m2 m3 h0 h1 h2 h3]

/-- Witness for C3: three typed rate-limit failures then a success yield the
success with sleeps 15, 30, 60, and a plain error propagates sleep-free. -/
theorem C3_backoff_schedule_witness :
    safe_completion
        (fun n => if n < 3 then .rateLimitError ("rl") else .success ("ok")) =
      (.ok ("ok"), [15, 30, 60]) ∧
    safe_completion (fun _ => .otherExc ("boom")) =
      (.error (.generic ("boom")), []) :=
  ⟨(C3_backoff_schedule _).1 (Or.inl ⟨_, rfl⟩) (Or.inl ⟨_, rfl⟩)
      (Or.inl ⟨_, rfl⟩) ("ok") rfl,
    (C3_backoff_schedule _).2.1 ("boom") rfl (by rfl)⟩

/-- Counterexample to C3 as stated ("it sleeps only when attempts remain"):
four typed rate-limit failures produce FOUR sleeps 15, 30, 60, 120 — the
120-second sleep happens on the last attempt with no retry remaining, after
which the controller raises exhaustion, so the sleep schedule is not
`[15, 30, 60]` as the only-before-a-retry reading requires. -/
theorem C3_counterexample :
    (safe_completion (fun _ => .rateLimitError ("rl"))).2 = [15, 30, 60, 120] ∧
    (safe_completion (fun _ => .rateLimitError ("rl"))).2 ≠ [15, 30, 60] := by
  have hc := safeLoop_allTyped (fun _ => .rateLimitError ("rl"))
    ("rl") ("rl") ("rl") ("rl") rfl rfl rfl rfl
  rw [hc]
  exact ⟨rfl, by decide⟩

/-- C1 (corrected): for a non-empty variants mapping the returned winner is
always a key of the RETURNED SCORE MAPPING — a valid claimed winner is kept,
an invalid or missing claimed winner is recomputed as the first key
attaining the maximum score, and `"Unknown"` can only arise from an empty
score mapping, which cannot happen for non-empty variants.  (As the
counterexample shows, the winner need not be a key of the input variants
mapping: the recomputed maximum may be a judge-invented score category.) -/
theorem C1_winner_in_scores (results : List (String × String))
    (calls : Nat → CallOutcome) (h : results ≠ []) :
    (get_winner_and_scores results calls).1 ∈
      (get_winner_and_scores results calls).2.map Prod.fst := by
  have hnames : variantNames results ≠ [] := by
    intro hv
    exact h (List.map_eq_nil_iff.mp hv)
  obtain ⟨n0, ns, hv⟩ : ∃ n0 ns, variantNames results = n0 :: ns := by
    cases hvv : variantNames results with
    | nil => exact absurd hvv hnames
    | cons a l => exact ⟨a, l, rfl⟩
  have hfallback : ∀ d : String,
      (variantNames results).headD d ∈ (defaultScores results).map Prod.fst := by
    intro d
    rw [defaultScores, hv]
    simp
  cases hout : (safe_completion calls).1 with
  | error e =>
    simp only [get_winner_and_scores, hout]
    exact hfallback _
  | ok content =>
    simp only [get_winner_and_scores, hout]
    cases ho : asObj? (_safe_json_parse content) with
    | none =>
      simp only [judgeFromParsed, ho]
      exact hfallback _
    | some kvs =>
      simp only [judgeFromParsed, ho]
      cases hco : coerceScoresE (scoresObjOf kvs) with
      | error e2 =>
        simp only [hco]
        exact hfallback _
      | ok scores0 =>
        simp only [hco]
        have hcov : (pyGet (fillDefaults (variantNames results) scores0)
            n0).isSome :=
          fillDefaults_covers (by rw [hv]; exact List.mem_cons_self _ _) _
        have hscnil : fillDefaults (variantNames results) scores0 ≠ [] := by
          intro hnil
          rw [hnil] at hcov
          simp [pyGet] at hcov
        cases hw : validWinner? results kvs with
        | some w =>
          simp only [hw]
          have hcovw : (pyGet (fillDefaults (variantNames results) scores0)
              w).isSome :=
            fillDefaults_covers (pyIn_mem (validWinner_pyIn hw)) _
          obtain ⟨v, hv'⟩ := Option.isSome_iff_exists.mp hcovw
          exact pyGet_mem_keys hv'
        | none =>
          obtain ⟨kv, hmax, hmemkv⟩ := pyMaxBySnd_mem hscnil
          simp only [hw, recomputeWinner, hmax]
          exact List.mem_map.mpr ⟨kv, hmemkv, rfl⟩

/-- Witness for C1: with one variant and a failing judge call, the fallback
winner is a key of the returned score mapping. -/
theorem C1_winner_in_scores_witness :
    (get_winner_and_scores [(("Coding"), ("x"))] (fun _ => .otherExc ("boom"))).1 ∈
      (get_winner_and_scores [(("Coding"), ("x"))]
          (fun _ => .otherExc ("boom"))).2.map Prod.fst :=
  C1_winner_in_scores _ _ (by simp)

/-- Counterexample to C1 as stated: for the non-empty variants mapping
`{"Coding": "x"}` and a judge response scoring only the invented category
`"Bogus"` with a non-string claimed winner, the recomputed winner is
`"Bogus"`, which is NOT a key of the variants mapping — the maximum is taken
over the score mapping, which retains judge-invented categories. -/
theorem C1_counterexample :
    ([(("Coding"), ("x"))] : List (String × String)) ≠ [] ∧
    (get_winner_and_scores [(("Coding"), ("x"))]
        (fun _ => .success
          ("\x7b\"scores\": \x7b\"Bogus\": 10\x7d, \"winner\": 42\x7d"))).1 =
      ("Bogus") ∧
    ("Bogus") ∉ variantNames [(("Coding"), ("x"))] := by
  refine ⟨by simp, by rfl, by decide⟩

/-- C6 (corrected): for every variants mapping and every judge-call outcome,
the returned score mapping covers every variant category, and each variant
category's score is either the default 6 (category omitted or mis-scored)
or the integer coercion of the value the judge supplied for it.  (As the
counterexample shows, the coerced value is NOT clamped to [1,10]: the code
performs no range check, so the claim's "integers in [1,10] (or the default
6)" part fails.) -/
theorem C6_scores_cover (results : List (String × String))
    (calls : Nat → CallOutcome) (k : String) (hk : k ∈ variantNames results) :
    ∃ v : Int, pyGet (get_winner_and_scores results calls).2 k = some v ∧
      (v = 6 ∨ ∃ raw, (k, raw) ∈ judgeRawScores calls ∧ pyInt? raw = some v) := by
  cases hout : (safe_completion calls).1 with
  | error e =>
    refine ⟨6, ?_, Or.inl rfl⟩
    simp only [get_winner_and_scores, hout, defaultScores]
    exact pyGet_defaultScores hk
  | ok content =>
    cases ho : asObj? (_safe_json_parse content) with
    | none =>
      refine ⟨6, ?_, Or.inl rfl⟩
      simp only [get_winner_and_scores, hout, judgeFromParsed, ho, defaultScores]
      exact pyGet_defaultScores hk
    | some kvs =>
      cases hco : coerceScoresE (scoresObjOf kvs) with
      | error e2 =>
        refine ⟨6, ?_, Or.inl rfl⟩
        simp only [get_winner_and_scores, hout, judgeFromParsed, ho, hco,
          defaultScores]
        exact pyGet_defaultScores hk
      | ok scores0 =>
        have hcov : (pyGet (fillDefaults (variantNames results) scores0)
            k).isSome := fillDefaults_covers hk _
        obtain ⟨v, hv⟩ := Option.isSome_iff_exists.mp hcov
        refine ⟨v, ?_, ?_⟩
        · simp only [get_winner_and_scores, hout, judgeFromParsed, ho, hco]
          exact hv
        · rcases fillDefaults_six hv with hc | h6
          · obtain ⟨raw, hmem, hcoe⟩ := coerceScoresE_mem hco hc
            refine Or.inr ⟨raw, ?_, hcoe⟩
            simp only [judgeRawScores, hout, ho]
            exact hmem
          · exact Or.inl h6

/-- Witness for C6: with one variant and a judge response omitting it, the
variant's score defaults to 6. -/
theorem C6_scores_cover_witness :
    ∃ v : Int, pyGet (get_winner_and_scores [(("Coding"), ("x"))]
        (fun _ => .success ("\x7b\"scores\": \x7b\x7d, \"winner\": 42\x7d"))).2
      ("Coding") = some v ∧
      (v = 6 ∨ ∃ raw, (("Coding"), raw) ∈ judgeRawScores
          (fun _ => .success ("\x7b\"scores\": \x7b\x7d, \"winner\": 42\x7d")) ∧
        pyInt? raw = some v) :=
  C6_scores_cover _ _ ("Coding") (by decide)

/-- Counterexample to C6 as stated: the judge scores `"Coding"` as 15; the
returned score for the variant category `"Coding"` is the unclamped 15,
which is neither in [1,10] nor the default 6. -/
theorem C6_counterexample :
    pyGet (get_winner_and_scores [(("Coding"), ("x"))]
        (fun _ => .success
          ("\x7b\"scores\": \x7b\"Coding\": 15\x7d, \"winner\": \"Coding\"\x7d"))).2
      ("Coding") = some 15 ∧
    ¬ ((15 : Int) = 6 ∨ (1 ≤ (15 : Int) ∧ (15 : Int) ≤ 10)) := by
  exact ⟨by rfl, by decide⟩

/-- C10 (corrected): a category scored by the judge but absent from the
variants mapping is retained (after integer coercion) in the returned score
mapping PROVIDED no scored value's coercion raises the uncaught
`OverflowError` of an infinite float — as the counterexample shows, a
single infinity among the scores aborts the whole build and no extra entry
survives.  A retained extra category participates in the maximum-score
winner recomputation: in the concrete instance the invented `"Extra": 9`
beats the real `"Coding": 2` when the claimed winner is invalid. -/
theorem C10_extra_categories (results : List (String × String))
    (calls : Nat → CallOutcome) (k : String) (raw : JVal) (n : Int)
    (h1 : pyGet (judgeRawScores calls) k = some raw)
    (h2 : pyInt? raw = some n) (_h3 : k ∉ variantNames results)
    (h4 : ∀ kv ∈ judgeRawScores calls, pyIntCoerce kv.2 ≠ .raiseOverflow) :
    pyGet (get_winner_and_scores results calls).2 k = some n ∧
    get_winner_and_scores [(("Coding"), ("x"))]
        (fun _ => .success
          ("\x7b\"scores\": \x7b\"Extra\": 9, \"Coding\": 2\x7d, \"winner\": 1\x7d")) =
      (("Extra"), [(("Extra"), 9), (("Coding"), 2)]) := by
  refine ⟨?_, by rfl⟩
  cases hout : (safe_completion calls).1 with
  | error e =>
    simp only [judgeRawScores, hout] at h1
    simp [pyGet] at h1
  | ok content =>
    cases ho : asObj? (_safe_json_parse content) with
    | none =>
      simp only [judgeRawScores, hout, ho] at h1
      simp [pyGet] at h1
    | some kvs =>
      simp only [judgeRawScores, hout, ho] at h1 h4
      obtain ⟨scored, hsc⟩ := coerceScoresE_ok_of_no_raise h4
      simp only [get_winner_and_scores, hout, judgeFromParsed, ho, hsc]
      exact fillDefaults_preserve (coerceScoresE_pyGet hsc h1 h2)

/-- Witness for C10: the invented category `"Extra"` (absent from the single
variant `"Coding"`, no infinity among the scores) is retained with its
coerced score 9. -/
theorem C10_extra_categories_witness :
    pyGet (get_winner_and_scores [(("Coding"), ("x"))]
        (fun _ => .success
          ("\x7b\"scores\": \x7b\"Extra\": 9, \"Coding\": 2\x7d, \"winner\": 1\x7d"))).2
      ("Extra") = some 9 :=
  (C10_extra_categories _ _ ("Extra") (.jint 9) 9 (by rfl) (by rfl) (by decide)
    (by decide)).1

/-- Counterexample to C10 as stated: the judge response scores the invented
category `"Extra"` with the coercible 9 but also scores `"Bad"` as
`Infinity` (which `json.loads` accepts).  `int(float('inf'))` raises
`OverflowError`, which `except (TypeError, ValueError)` at backend.py
line 225 does not catch; the exception reaches the outer handler of
line 237 and the whole judgment collapses to the first-variant/all-default
fallback — the extra entry is NOT retained. -/
theorem C10_counterexample :
    pyGet (judgeRawScores
        (fun _ => .success
          ("\x7b\"scores\": \x7b\"Extra\": 9, \"Bad\": Infinity\x7d, \"winner\": \"Coding\"\x7d")))
      ("Extra") = some (.jint 9) ∧
    pyInt? (.jint 9) = some 9 ∧
    ("Extra") ∉ variantNames [(("Coding"), ("x"))] ∧
    get_winner_and_scores [(("Coding"), ("x"))]
        (fun _ => .success
          ("\x7b\"scores\": \x7b\"Extra\": 9, \"Bad\": Infinity\x7d, \"winner\": \"Coding\"\x7d")) =
      (("Coding"), [(("Coding"), 6)]) ∧
    pyGet (get_winner_and_scores [(("Coding"), ("x"))]
        (fun _ => .success
          ("\x7b\"scores\": \x7b\"Extra\": 9, \"Bad\": Infinity\x7d, \"winner\": \"Coding\"\x7d"))).2
      ("Extra") = none := by
  exact ⟨by rfl, by rfl, by decide, by rfl, by rfl⟩

/-- C7 (confirmed): `get_fusion` never raises — for every call outcome it
returns a string: the completion text on success, and on ANY failure
(including retry exhaustion) the error-tagged string `"Error: " + str(e)`;
when the judge call exhausts its typed rate-limit retries, the returned tag
contains the word `"retries"`, so callers can recognize rate-limit
exhaustion by substring inspection. -/
theorem C7_fusion_error_tagged (results : List (String × String))
    (calls : Nat → CallOutcome) :
    (∀ t, (safe_completion calls).1 = .ok t → get_fusion results calls = t) ∧
    (∀ e, (safe_completion calls).1 = .error e →
      get_fusion results calls = ("Error: ") ++ pyStr e) ∧
    ((∀ i, i < 4 → ∃ m, calls i = .rateLimitError m) →
      containsSubL (("retries").data) (get_fusion results calls).data = true) := by
  refine ⟨?_, ?_, ?_⟩
  · intro t h
    simp only [get_fusion, h]
  · intro e h
    simp only [get_fusion, h]
  · intro h
    obtain ⟨m0, h0⟩ := h 0 (by decide)
    obtain ⟨m1, h1⟩ := h 1 (by decide)
    obtain ⟨m2, h2⟩ := h 2 (by decide)
    obtain ⟨m3, h3⟩ := h 3 (by decide)
    have hc := safeLoop_allTyped calls m0 m1 m2 m3 h0 h1 h2 h3
    have he : (safe_completion calls).1 =
        .error (.runtimeError ("Rate limit retries exhausted")
          (some (.rateLimit m3))) := by rw [hc]
    simp only [get_fusion, he, pyStr]
    rfl

/-- Witness for C7: a fusion call that is rate-limited on every attempt
returns a string containing `"retries"`. -/
theorem C7_fusion_error_tagged_witness :
    containsSubL (("retries").data)
      (get_fusion [] (fun _ => .rateLimitError ("429"))).data = true :=
  (C7_fusion_error_tagged [] _).2.2 (fun _ _ => ⟨_, rfl⟩)

/-- C8 (confirmed): `run_optimizers` always returns the four category keys
`Coding, Research, Concise, Structured`, each exactly once and in that
fixed insertion order; each category's value depends only on its own call
(per-call isolation), so one failing call yields an error-prefixed string in
that slot only while the other three keep their real texts; and only a
failure of the batch machinery outside the per-call guards fills all four
categories with the same error text. -/
theorem C8_fanout_isolation
    (c1 c2 c3 c4 : Nat → CallOutcome) :
    (run_optimizers c1 c2 c3 c4 .normal).map Prod.fst =
      [("Coding"), ("Research"), ("Concise"), ("Structured")] ∧
    run_optimizers c1 c2 c3 c4 .normal =
      [(("Coding"), _optimize_prompt c1), (("Research"), _optimize_prompt c2),
        (("Concise"), _optimize_prompt c3), (("Structured"), _optimize_prompt c4)] ∧
    (∀ e t2 t3 t4, (safe_completion c1).1 = .error e →
      (safe_completion c2).1 = .ok t2 → (safe_completion c3).1 = .ok t3 →
      (safe_completion c4).1 = .ok t4 →
      run_optimizers c1 c2 c3 c4 .normal =
        [(("Coding"), ("Error: ") ++ pyStr e), (("Research"), t2),
          (("Concise"), t3), (("Structured"), t4)]) ∧
    (∀ e, run_optimizers c1 c2 c3 c4 (.outerError e) =
      [(("Coding"), ("Error: ") ++ pyStr e), (("Research"), ("Error: ") ++ pyStr e),
        (("Concise"), ("Error: ") ++ pyStr e), (("Structured"), ("Error: ") ++ pyStr e)]) := by
  refine ⟨by rfl, by rfl, ?_, fun e => by rfl⟩
  intro e t2 t3 t4 h1 h2 h3 h4
  simp only [run_optimizers, _optimize_prompt, h1, h2, h3, h4]

/-- Witness for C8: one failing call among four produces three real texts
and one error-tagged slot. -/
theorem C8_fanout_isolation_witness :
    run_optimizers (fun _ => .otherExc ("boom")) (fun _ => .success ("a"))
        (fun _ => .success ("b")) (fun _ => .success ("c")) .normal =
      [(("Coding"), ("Error: boom")), (("Research"), ("a")),
        (("Concise"), ("b")), (("Structured"), ("c"))] :=
  (C8_fanout_isolation _ _ _ _).2.2.1 (.generic ("boom")) ("a") ("b") ("c")
    (by rfl) (by rfl) (by rfl) (by rfl)

/-! ## Helper lemmas for model-identifier normalization -/

theorem dropWhile_head_false {p : Char → Bool} {l r : List Char} {c : Char}
    (h : l.dropWhile p = c :: r) : p c = false := by
  induction l with
  | nil => simp [List.dropWhile] at h
  | cons a as ih =>
    rw [List.dropWhile_cons] at h
    by_cases hpa : p a = true
    · rw [if_pos hpa] at h; exact ih h
    · rw [if_neg hpa] at h
      obtain ⟨ha, -⟩ := List.cons.inj h
      cases hpb : p c with
      | false => rfl
      | true => rw [← ha] at hpb; exact absurd hpb hpa

theorem dropWhile_idem (p : Char → Bool) (l : List Char) :
    (l.dropWhile p).dropWhile p = l.dropWhile p := by
  cases h : l.dropWhile p with
  | nil => rfl
  | cons c r => simp [List.dropWhile_cons, dropWhile_head_false h]

theorem dropWhile_eq_self_head {p : Char → Bool} {x : List Char}
    (h : ∀ c, x.head? = some c → p c = false) : x.dropWhile p = x := by
  cases x with
  | nil => rfl
  | cons a as => simp [List.dropWhile_cons, h a rfl]

theorem pyStripL_last {l : List Char} {c : Char}
    (h : (pyStripL l).getLast? = some c) : isPySpace c = false := by
  unfold pyStripL at h
  rw [List.getLast?_reverse] at h
  cases hD : (l.dropWhile isPySpace).reverse.dropWhile isPySpace with
  | nil => rw [hD] at h; exact Option.noConfusion h
  | cons d0 dr =>
    rw [hD] at h
    have hd : d0 = c := by simpa using h
    rw [← hd]
    exact dropWhile_head_false hD

theorem pyStripL_head {l : List Char} {c : Char}
    (h : (pyStripL l).head? = some c) : isPySpace c = false := by
  unfold pyStripL at h
  rw [List.head?_reverse] at h
  obtain ⟨t, ht⟩ :=
    List.dropWhile_suffix (l := (l.dropWhile isPySpace).reverse) isPySpace
  have hA : (l.dropWhile isPySpace).head? = some c := by
    have h1 : ((l.dropWhile isPySpace).reverse).getLast? = some c := by
      rw [← ht, List.getLast?_append, h]; rfl
    rw [List.getLast?_reverse] at h1
    exact h1
  cases hAc : l.dropWhile isPySpace with
  | nil => rw [hAc] at hA; exact Option.noConfusion hA
  | cons a as =>
    rw [hAc] at hA
    have ha : a = c := by simpa using hA
    rw [← ha]
    exact dropWhile_head_false hAc

theorem pyStripL_idem (l : List Char) : pyStripL (pyStripL l) = pyStripL l := by
  have h0 : pyStripL (pyStripL l) =
      (((pyStripL l).dropWhile isPySpace).reverse.dropWhile isPySpace).reverse := rfl
  have h1 : (pyStripL l).dropWhile isPySpace = pyStripL l :=
    dropWhile_eq_self_head (fun c hc => pyStripL_head hc)
  have h2 : (pyStripL l).reverse.dropWhile isPySpace = (pyStripL l).reverse := by
    apply dropWhile_eq_self_head
    intro c hc
    rw [List.head?_reverse] at hc
    exact pyStripL_last hc
  rw [h0, h1, h2, List.reverse_reverse]

theorem isPrefixL_append_self (p l : List Char) : isPrefixL p (p ++ l) = true := by
  induction p with
  | nil => rfl
  | cons a as ih => simp [isPrefixL, ih]

theorem pyStripL_groq_append (l : List Char) :
    pyStripL (("groq/").data ++ pyStripL l) = ("groq/").data ++ pyStripL l := by
  have hg : ("groq/").data = 'g' :: ('r' :: ('o' :: ('q' :: ('/' :: [])))) := rfl
  have h1 : (("groq/").data ++ pyStripL l).dropWhile isPySpace =
      ("groq/").data ++ pyStripL l := by
    apply dropWhile_eq_self_head
    intro c hc
    rw [hg] at hc
    have hcg : c = 'g' := by simpa using hc.symm
    rw [hcg]; rfl
  have h2 : ((("groq/").data ++ pyStripL l).reverse).dropWhile isPySpace =
      (("groq/").data ++ pyStripL l).reverse := by
    apply dropWhile_eq_self_head
    intro c hc
    rw [List.head?_reverse, List.getLast?_append] at hc
    cases hm : (pyStripL l).getLast? with
    | some d =>
      rw [hm] at hc
      have hd : d = c := by simpa using hc
      rw [← hd]
      exact pyStripL_last hm
    | none =>
      rw [hm] at hc
      have hgl : ("groq/").data.getLast? = some ('/') := by rfl
      rw [hgl] at hc
      have hcc : c = '/' := by simpa using hc.symm
      rw [hcc]; rfl
  have h0 : pyStripL (("groq/").data ++ pyStripL l) =
      (((("groq/").data ++ pyStripL l).dropWhile isPySpace).reverse.dropWhile
        isPySpace).reverse := rfl
  rw [h0, h1, h2, List.reverse_reverse]

theorem normGroqL_idem (l : List Char) : normGroqL (normGroqL l) = normGroqL l := by
  by_cases hp : isPrefixL (("groq/").data) (pyStripL l) = true
  · have h1 : normGroqL l = pyStripL l := by
      unfold normGroqL; rw [if_pos hp]
    rw [h1]
    unfold normGroqL
    rw [pyStripL_idem, if_pos hp]
  · have h1 : normGroqL l = ("groq/").data ++ pyStripL l := by
      unfold normGroqL; rw [if_neg hp]
    rw [h1]
    unfold normGroqL
    rw [pyStripL_groq_append, if_pos (isPrefixL_append_self _ _)]

/-- C9 (confirmed): model-identifier normalization is idempotent, its result
always carries the `groq/` provider namespace, and for a bare name (one
whose stripped form does not already start with `groq/`) the prefix is
prepended exactly once: what follows the prepended `groq/` is the stripped
bare name, which itself does not start with `groq/`. -/
theorem C9_normalize_idempotent (s : String) :
    _normalize_groq_model (_normalize_groq_model s) = _normalize_groq_model s ∧
    isPrefixL (("groq/").data) (normGroqL s.data) = true ∧
    (isPrefixL (("groq/").data) (pyStripL s.data) = false →
      (normGroqL s.data).drop 5 = pyStripL s.data ∧
      isPrefixL (("groq/").data) ((normGroqL s.data).drop 5) = false) := by
  refine ⟨?_, ?_, ?_⟩
  · show (⟨normGroqL (normGroqL s.data)⟩ : String) = ⟨normGroqL s.data⟩
    rw [normGroqL_idem]
  · by_cases hp : isPrefixL (("groq/").data) (pyStripL s.data) = true
    · unfold normGroqL; rw [if_pos hp]; exact hp
    · unfold normGroqL; rw [if_neg hp]; exact isPrefixL_append_self _ _
  · intro hp
    have hp' : ¬ isPrefixL (("groq/").data) (pyStripL s.data) = true := by
      rw [hp]; exact Bool.false_ne_true
    have h1 : normGroqL s.data = ("groq/").data ++ pyStripL s.data := by
      unfold normGroqL; rw [if_neg hp']
    have h2 : (normGroqL s.data).drop 5 = pyStripL s.data := by
      rw [h1]
      have h5 : 5 = (("groq/").data).length := by rfl
      rw [h5, List.drop_left]
    exact ⟨h2, by rw [h2]; exact hp⟩

/-- Witness for C9: normalizing the bare name `llama-3.1-8b-instant` is
idempotent and prepends the provider prefix exactly once. -/
theorem C9_normalize_idempotent_witness :
    _normalize_groq_model (_normalize_groq_model ("llama-3.1-8b-instant")) =
        _normalize_groq_model ("llama-3.1-8b-instant") ∧
    (normGroqL (("llama-3.1-8b-instant") : String).data).drop 5 =
        pyStripL (("llama-3.1-8b-instant") : String).data :=
  ⟨(C9_normalize_idempotent ("llama-3.1-8b-instant")).1,
    ((C9_normalize_idempotent ("llama-3.1-8b-instant")).2.2 (by rfl)).1⟩
